import Mathlib

/-!
Formal model of the playback orchestration subsystem of the
mcp-make-sound server (src/index.ts, latest revision).

The embedding covers: the validator constants and whitelists, the
tts branch of playCustomSound, the per-category admission set
(activeRequests), the file stat cache (fileStatCache, cleanupCache,
getCachedFileStat), the file branch of playCustomSound, and the
process-supervision promise with its timeout race.

Timestamps are Nat milliseconds (Date.now()).  Strings coming from
JavaScript are modelled by Lean String, whose characters are Unicode
code points; the JavaScript String.prototype.length (UTF-16 code
units) is modelled separately by jsStringLength.
-/

deriving instance DecidableEq for Except

namespace MakeSound

/-! ### Constants, src/index.ts lines 351-369 (latest revision) -/

def MAX_TTS_TEXT_LENGTH : Nat := 1000

def PROCESS_TIMEOUT_MS : Nat := 10000

def FILE_CACHE_TTL : Nat := 60000

def MAX_CACHE_SIZE : Nat := 100

def CACHE_CLEANUP_INTERVAL : Nat := 300000

/-- ALLOWED_SYSTEM_SOUNDS, src/index.ts lines 335-338. -/
def ALLOWED_SYSTEM_SOUNDS : List String :=
  ["Basso", "Blow", "Bottle", "Frog", "Funk", "Glass", "Hero", "Morse",
   "Ping", "Pop", "Purr", "Sosumi", "Submarine", "Tink"]

/-- ALLOWED_TTS_VOICES, src/index.ts lines 340-349. -/
def ALLOWED_TTS_VOICES : List String :=
  ["Albert", "Alice", "Bad News", "Bahh", "Bells", "Boing", "Bruce", "Bubbles",
   "Cellos", "Daniel", "Deranged", "Fred", "Good News", "Hysterical", "Junior",
   "Kathy", "Pipe Organ", "Princess", "Ralph", "Trinoids", "Whisper", "Zarvox",
   "Anna", "Amélie", "Daria", "Eddy", "Fiona", "Jorge", "Juan", "Luca",
   "Marie", "Moira", "Nora", "Rishi", "Samantha", "Serena", "Tessa", "Thomas",
   "Veena", "Victoria", "Xander", "Yelda", "Zosia"]

/-! ### JavaScript string lengths

A JavaScript string is a sequence of UTF-16 code units; its .length
property counts code units, so a code point at or above 0x10000
(a surrogate pair) contributes 2.  A Lean String is a sequence of
code points. -/

/-- The value of text.length in JavaScript for the string s. -/
def jsStringLength (s : String) : Nat :=
  (s.data.map (fun c => if c.toNat < 65536 then 1 else 2)).sum

/-- The number of Unicode code points of s. -/
def codePointCount (s : String) : Nat := s.data.length

/-! ### The tts branch of playCustomSound, src/index.ts lines 521-540 -/

/-- An external process invocation: executable name and discrete
argument list, as passed to spawn. -/
structure SpawnCall where
  cmd : String
  args : List String
deriving DecidableEq, Repr

/-- Result of the tts branch: the spawn call it performs and whether
console.warn was invoked for an unknown voice. -/
structure TtsResult where
  call : SpawnCall
  warned : Bool
deriving DecidableEq, Repr

/-- Lines 530-535: if a voice is provided but is not in
ALLOWED_TTS_VOICES, console.warn is called and finalVoice is set to
undefined.  Returns (finalVoice, warned). -/
def resolveTtsVoice (voice : Option String) : Option String × Bool :=
  match voice with
  | none => (none, false)
  | some v =>
    if ALLOWED_TTS_VOICES.contains v then (some v, false) else (none, true)

/-- Line 537: const args = finalVoice ? ["-v", finalVoice, text] : [text].
The empty string is falsy in JavaScript, hence the isEmpty test. -/
def ttsSpawnArgs (finalVoice : Option String) (text : String) : List String :=
  match finalVoice with
  | some v => if v.isEmpty then [text] else ["-v", v, text]
  | none => [text]

/-- The tts case of playCustomSound, lines 521-539: length check
against MAX_TTS_TEXT_LENGTH using the JavaScript .length (UTF-16 code
units), then voice resolution, then spawn("say", args). -/
def ttsBranch (text : String) (voice : Option String) : Except String TtsResult :=
  if jsStringLength text > MAX_TTS_TEXT_LENGTH then
    .error s!"Text too long (max {MAX_TTS_TEXT_LENGTH} characters)"
  else
    match resolveTtsVoice voice with
    | (finalVoice, warned) =>
      .ok { call := { cmd := "say", args := ttsSpawnArgs finalVoice text }
            warned := warned }

/-- The tool handler guard at src/index.ts line 714-716 combined with
the tts branch: a missing text field, and also an empty text (falsy in
JavaScript), are rejected before playCustomSound runs. -/
def ttsRequest (text : Option String) (voice : Option String) : Except String TtsResult :=
  match text with
  | none => .error "Parameter \x22text\x22 is required when type is \x22tts\x22"
  | some t =>
    if t.isEmpty then
      .error "Parameter \x22text\x22 is required when type is \x22tts\x22"
    else ttsBranch t voice

/-! ### The per-category admission set, src/index.ts line 355
(const activeRequests = new Set of string) -/

/-- activeRequests.has(category). -/
def gateHas (active : List String) (category : String) : Bool :=
  active.contains category

/-- activeRequests.add(category); a Set never stores duplicates. -/
def gateAdd (active : List String) (category : String) : List String :=
  if active.contains category then active else category :: active

/-- activeRequests.delete(category). -/
def gateDelete (active : List String) (category : String) : List String :=
  active.erase category

/-- Outcome of the synchronous opening segment of playCustomSound for
one request. -/
inductive Admission
  | rejected
  | admittedAndSpawned
deriving DecidableEq, Repr

/-- The synchronous segment of playCustomSound (src/index.ts lines
497-590) for a tts or system request, transcribed with the actual
evaluation order of the JavaScript: the function body is
try { ... return new Promise(...) } finally { activeRequests.delete }.
In an async function, returning a promise from the try block runs the
finally clause as soon as the promise object has been constructed,
before that promise settles; so the category token is deleted right
after the child process is spawned, while playback is still running.
For a tts or system request there is no await between
activeRequests.add and the finally clause, so the admission check, the
add, the spawn and the delete form one atomic segment; the close event
of the child process, which settles the promise, is a separate later
event. -/
def customSoundSyncSegment (active : List String) (category : String) :
    Admission × List String :=
  if gateHas active category then
    (.rejected, active)
  else
    let afterAdd := gateAdd active category
    -- validation and spawn happen here, synchronously
    let afterFinally := gateDelete afterAdd category
    (.admittedAndSpawned, afterFinally)

/-- Two same-category requests: the second one arrives after the first
has spawned its child process but before that process closes (playback
takes up to PROCESS_TIMEOUT_MS).  Returns both admission outcomes. -/
def overlappingSameCategory (category : String) : Admission × Admission :=
  match customSoundSyncSegment [] category with
  | (r1, s1) =>
    match customSoundSyncSegment s1 category with
    | (r2, _) => (r1, r2)

/-! ### The process supervisor, src/index.ts lines 442-460 and 566-586

The promise body installs a setTimeout of PROCESS_TIMEOUT_MS whose
callback kills the child and rejects, a close handler that clears the
timer and resolves or rejects by exit code, and an error handler that
clears the timer and rejects.  We model the race as a sequence of
events processed in order; a promise settles at most once (the first
resolve or reject wins); a cleared or already-fired timer never fires
again. -/

inductive SupEvent
  | closeEv (code : Int)
  | errorEv (msg : String)
  | timeoutEv
deriving DecidableEq, Repr

inductive SupOutcome
  | success
  | processFailure (code : Int)
  | timeoutError
  | launchError (msg : String)
deriving DecidableEq, Repr

structure SupState where
  settled : Option SupOutcome
  timerActive : Bool
  killSignalSent : Bool
deriving DecidableEq, Repr

def supInit : SupState :=
  { settled := none, timerActive := true, killSignalSent := false }

/-- resolve or reject: a promise keeps its first settlement. -/
def settlePromise (s : SupState) (o : SupOutcome) : SupState :=
  if s.settled.isSome then s else { s with settled := some o }

/-- One event of the race.  The timeout callback runs only while the
timer is live; it calls child.kill() (whose own success or failure is
ignored by the code) and rejects with the timeout error.  The close
and error handlers first call clearTimeout, then settle. -/
def supStep (s : SupState) (ev : SupEvent) : SupState :=
  match ev with
  | .timeoutEv =>
    if s.timerActive then
      settlePromise { s with killSignalSent := true } .timeoutError
    else s
  | .closeEv code =>
    settlePromise { s with timerActive := false }
      (if code = 0 then .success else .processFailure code)
  | .errorEv msg =>
    settlePromise { s with timerActive := false } (.launchError msg)

def supRun (events : List SupEvent) : SupState :=
  events.foldl supStep supInit

/-- The outcome dictated by whichever race participant fires first. -/
def firstOutcome : SupEvent → SupOutcome
  | .closeEv code => if code = 0 then .success else .processFailure code
  | .errorEv msg => .launchError msg
  | .timeoutEv => .timeoutError

/-! ### The file stat cache, src/index.ts lines 357-398 and 467-495

fileStatCache is a JavaScript Map from absolute path strings to
objects with fields stats, timestamp, lastAccessed.  We model the Map
as an association list in insertion order (Map iteration order), with
keys unique (a Map never holds two entries for one key). -/

/-- The part of a fs.Stats object the program consults: the result of
stats.isFile(), plus an identity tag distinguishing metadata captured
by different stat calls. -/
structure Stats where
  isFile : Bool
  ident : Nat
deriving DecidableEq, Repr

/-- One fileStatCache entry, src/index.ts lines 358-362. -/
structure CacheEntry where
  stats : Stats
  timestamp : Nat
  lastAccessed : Nat
deriving DecidableEq, Repr

abbrev Cache := List (String × CacheEntry)

/-- fileStatCache.get(k). -/
def mapGet (c : Cache) (k : String) : Option CacheEntry :=
  match c.find? (fun kv => kv.1 == k) with
  | some kv => some kv.2
  | none => none

/-- fileStatCache.set(k, e): an existing key keeps its position and is
overwritten; a new key is appended. -/
def mapSet (c : Cache) (k : String) (e : CacheEntry) : Cache :=
  if (c.find? (fun kv => kv.1 == k)).isSome then
    c.map (fun kv => if kv.1 == k then (k, e) else kv)
  else c ++ [(k, e)]

/-- fileStatCache.delete(k): keys are unique in a Map, so deletion is
removal of every pair carrying k. -/
def mapDelete (c : Cache) (k : String) : Cache :=
  c.filter (fun kv => !(kv.1 == k))

/-- The in-place mutation cached.lastAccessed = now on a cache hit,
src/index.ts line 473. -/
def touchEntry (c : Cache) (k : String) (now : Nat) : Cache :=
  c.map (fun kv =>
    if kv.1 == k then (kv.1, { kv.2 with lastAccessed := now }) else kv)

/-- The comparator of src/index.ts line 387:
(a, b) => a[1].lastAccessed - b[1].lastAccessed, as a Bool order. -/
def entryLe (a b : String × CacheEntry) : Bool :=
  decide (a.2.lastAccessed ≤ b.2.lastAccessed)

/-- Phase 1 of cleanupCache, lines 376-382: delete every entry with
now - timestamp > FILE_CACHE_TTL.  Nat subtraction truncates at zero,
matching the JavaScript comparison (a negative difference is not
greater than the TTL either). -/
def expireSweep (now : Nat) (c : Cache) : Cache :=
  c.filter (fun kv => !(decide (now - kv.2.timestamp > FILE_CACHE_TTL)))

/-- The keys deleted by phase 2 of cleanupCache, lines 386-392: the
first size - MAX_CACHE_SIZE keys of the entries sorted by lastAccessed
ascending. -/
def lruVictims (c : Cache) : List String :=
  ((c.mergeSort entryLe).take (c.length - MAX_CACHE_SIZE)).map Prod.fst

/-- cleanupCache, src/index.ts lines 371-395: remove expired entries,
then, if still over MAX_CACHE_SIZE, delete the oldest-accessed keys
until the size is back to MAX_CACHE_SIZE. -/
def cleanupCache (now : Nat) (c : Cache) : Cache :=
  let afterExpiry := expireSweep now c
  if afterExpiry.length > MAX_CACHE_SIZE then
    (lruVictims afterExpiry).foldl mapDelete afterExpiry
  else afterExpiry

/-- What one call of getCachedFileStat produces: the returned or
thrown value, the cache afterwards, and whether a real stat syscall
was performed. -/
structure StatOutcome where
  result : Except String Stats
  cache : Cache
  didStat : Bool
deriving Repr

/-- The miss path of getCachedFileStat, src/index.ts lines 477-494:
perform the stat; on success run cleanupCache when the cache is at or
over MAX_CACHE_SIZE, then insert the fresh entry; on failure delete
any stale entry for the path and rethrow. -/
def freshStat (statFn : String → Except String Stats) (now : Nat)
    (c : Cache) (filePath : String) : StatOutcome :=
  match statFn filePath with
  | .ok st =>
    let c1 := if c.length ≥ MAX_CACHE_SIZE then cleanupCache now c else c
    { result := .ok st
      cache := mapSet c1 filePath { stats := st, timestamp := now, lastAccessed := now }
      didStat := true }
  | .error e =>
    { result := .error e, cache := mapDelete c filePath, didStat := true }

/-- getCachedFileStat, src/index.ts lines 467-495.  statFn is the
filesystem oracle (node:fs/promises stat) at the moment of the call;
now is Date.now(). -/
def getCachedFileStat (statFn : String → Except String Stats) (now : Nat)
    (c : Cache) (filePath : String) : StatOutcome :=
  match mapGet c filePath with
  | some cached =>
    if now - cached.timestamp < FILE_CACHE_TTL then
      { result := .ok cached.stats
        cache := touchEntry c filePath now
        didStat := false }
    else freshStat statFn now c filePath
  | none => freshStat statFn now c filePath

/-! ### The file branch of playCustomSound, src/index.ts lines 542-556 -/

/-- node path.isAbsolute on the POSIX host platform the program
targets (afplay and say are macOS executables): a non-empty path whose
first character is a forward slash. -/
def isAbsolute (p : String) : Bool :=
  match p.data with
  | c :: _ => c == '/'
  | [] => false

structure FileBranchOutcome where
  result : Except String SpawnCall
  cache : Cache
  didStat : Bool
deriving Repr

/-- The file case of playCustomSound, lines 542-556: reject a
non-absolute path before any cache access; otherwise resolve the stat
through the cache; a stat failure, and also the inner throw for a
non-regular file, are both caught by the surrounding catch and
replaced by one uniform error message; on success spawn afplay. -/
def fileBranch (statFn : String → Except String Stats) (now : Nat)
    (c : Cache) (filePath : String) : FileBranchOutcome :=
  if !(isAbsolute filePath) then
    { result := .error "File path must be absolute", cache := c, didStat := false }
  else
    let so := getCachedFileStat statFn now c filePath
    match so.result with
    | .ok st =>
      if !(st.isFile) then
        { result := .error s!"File not found or inaccessible: {filePath}"
          cache := so.cache
          didStat := so.didStat }
      else
        { result := .ok { cmd := "afplay", args := [filePath] }
          cache := so.cache
          didStat := so.didStat }
    | .error _ =>
      { result := .error s!"File not found or inaccessible: {filePath}"
        cache := so.cache
        didStat := so.didStat }

/-! ### Concrete runs used as evidence -/

/-- A filesystem in which every path is a regular file. -/
def demoStatFn : String → Except String Stats :=
  fun _ => .ok { isFile := true, ident := 0 }

/-- A list of 100 pairwise distinct absolute paths. -/
def demoPaths100 : List String :=
  (List.range 100).map (fun i => "/f" ++ toString i)

/-- A text of 501 astral-plane characters: 501 code points but 1002
UTF-16 code units. -/
def astral501 : String := String.mk (List.replicate 501 (Char.ofNat 128512))

/-- The fileStatCache after 100 getCachedFileStat calls on distinct
fresh paths at one instant: 100 unexpired entries. -/
def demoCache100 : Cache :=
  demoPaths100.foldl (fun c p => (getCachedFileStat demoStatFn 0 c p).cache) []

/-- One more getCachedFileStat call on a 101st distinct path while the
cache holds 100 unexpired entries: the pre-insertion sweep runs (the
cache is at capacity) but evicts nothing, and the insertion follows. -/
def demoOverflow : StatOutcome :=
  getCachedFileStat demoStatFn 0 demoCache100 "/f100"

/-! ## Theorems -/

/-! ### Supervisor helper lemmas -/

theorem settlePromise_settled (s : SupState) (o : SupOutcome) :
    (settlePromise s o).settled = if s.settled.isSome then s.settled else some o := by
  unfold settlePromise
  split <;> simp_all

theorem settlePromise_timer (s : SupState) (o : SupOutcome) :
    (settlePromise s o).timerActive = s.timerActive := by
  unfold settlePromise
  split <;> rfl

theorem settlePromise_kill (s : SupState) (o : SupOutcome) :
    (settlePromise s o).killSignalSent = s.killSignalSent := by
  unfold settlePromise
  split <;> rfl

theorem supStep_settled_some {s : SupState} {o : SupOutcome} (ev : SupEvent)
    (h : s.settled = some o) : (supStep s ev).settled = some o := by
  cases ev with
  | timeoutEv =>
    by_cases ht : s.timerActive <;> simp [supStep, settlePromise_settled, h, ht]
  | closeEv code => simp [supStep, settlePromise_settled, h]
  | errorEv msg => simp [supStep, settlePromise_settled, h]

theorem foldl_supStep_settled (evs : List SupEvent) {s : SupState} {o : SupOutcome}
    (h : s.settled = some o) : (evs.foldl supStep s).settled = some o := by
  induction evs generalizing s with
  | nil => simpa using h
  | cons ev evs ih => exact ih (supStep_settled_some ev h)

theorem supStep_kill_mono {s : SupState} (ev : SupEvent)
    (h : s.killSignalSent = true) : (supStep s ev).killSignalSent = true := by
  cases ev with
  | timeoutEv =>
    by_cases ht : s.timerActive <;> simp [supStep, settlePromise_kill, h, ht]
  | closeEv code => simp [supStep, settlePromise_kill, h]
  | errorEv msg => simp [supStep, settlePromise_kill, h]

theorem foldl_supStep_kill (evs : List SupEvent) {s : SupState}
    (h : s.killSignalSent = true) : (evs.foldl supStep s).killSignalSent = true := by
  induction evs generalizing s with
  | nil => simpa using h
  | cons ev evs ih => exact ih (supStep_kill_mono ev h)

/-- C6: every supervised run settles on exactly one of the four
outcomes, determined by the first event of the race between process
close, spawn error and the timeout; a timeout-first run records the
kill signal; the close and error handlers deactivate the timer, a dead
timer event is inert, and the settlement never depends on whether the
kill succeeded. -/
theorem supervisor_race_outcomes :
    (∀ (ev : SupEvent) (evs : List SupEvent),
        (supRun (ev :: evs)).settled = some (firstOutcome ev)) ∧
    (∀ evs : List SupEvent, (supRun (.timeoutEv :: evs)).killSignalSent = true) ∧
    (∀ (s : SupState) (code : Int) (msg : String),
        (supStep s (.closeEv code)).timerActive = false ∧
        (supStep s (.errorEv msg)).timerActive = false ∧
        (s.timerActive = false → supStep s .timeoutEv = s)) ∧
    (∀ (s : SupState) (ev : SupEvent) (b : Bool),
        (supStep { s with killSignalSent := b } ev).settled = (supStep s ev).settled) := by
  refine ⟨?_, ?_, ?_, ?_⟩
  · intro ev evs
    have h1 : (supStep supInit ev).settled = some (firstOutcome ev) := by
      cases ev <;> simp [supStep, supInit, settlePromise_settled, firstOutcome]
    have h2 := foldl_supStep_settled evs h1
    simpa [supRun, List.foldl_cons] using h2
  · intro evs
    have h1 : (supStep supInit .timeoutEv).killSignalSent = true := by
      simp [supStep, supInit, settlePromise_kill]
    have h2 := foldl_supStep_kill evs h1
    simpa [supRun, List.foldl_cons] using h2
  · intro s code msg
    refine ⟨?_, ?_, ?_⟩
    · simp [supStep, settlePromise_timer]
    · simp [supStep, settlePromise_timer]
    · intro h
      simp [supStep, h]
  · intro s ev b
    cases ev with
    | timeoutEv =>
      by_cases ht : s.timerActive <;> simp [supStep, settlePromise_settled, ht]
    | closeEv code => simp [supStep, settlePromise_settled]
    | errorEv msg => simp [supStep, settlePromise_settled]

theorem supervisor_race_outcomes_witness :
    (supRun [SupEvent.timeoutEv, SupEvent.closeEv 0]).settled = some SupOutcome.timeoutError ∧
    (supRun [SupEvent.timeoutEv]).killSignalSent = true ∧
    supStep { settled := none, timerActive := false, killSignalSent := false } SupEvent.timeoutEv =
      { settled := none, timerActive := false, killSignalSent := false } :=
  ⟨supervisor_race_outcomes.1 SupEvent.timeoutEv [SupEvent.closeEv 0],
   supervisor_race_outcomes.2.1 [],
   (supervisor_race_outcomes.2.2.1
      { settled := none, timerActive := false, killSignalSent := false } 0 "spawn failure").2.2 rfl⟩

/-- C1: evaluation of the transcribed control flow on the failing
schedule.  The first tts request runs its synchronous segment: it is
admitted, spawns its child, and - because the finally clause of
playCustomSound runs as soon as the result promise is constructed -
its category token is already deleted when the segment ends.  A second
tts request arriving during the first playback is therefore admitted
as well, not rejected with the already-playing error; had the token
still been held, gateHas would have blocked it. -/
theorem second_tts_request_admitted_while_first_playing :
    overlappingSameCategory "tts" =
      (Admission.admittedAndSpawned, Admission.admittedAndSpawned) ∧
    (customSoundSyncSegment [] "tts").2 = [] ∧
    gateHas (gateAdd [] "tts") "tts" = true :=
  ⟨rfl, rfl, rfl⟩

/-- Erasing one category from the active set does not change the
membership of a different category. -/
theorem contains_erase_of_ne {l : List String} {a b : String} (h : a ≠ b) :
    (l.erase a).contains b = l.contains b := by
  simp [List.contains, List.elem_eq_mem, List.mem_erase_of_ne (Ne.symm h)]

/-- C9: the shared active set is keyed by the exact category string:
adding or deleting one category never changes the admission check of a
different category, and the six category keys are pairwise distinct. -/
theorem distinct_categories_do_not_interfere :
    (∀ (active : List String) (c1 c2 : String), c1 ≠ c2 →
        gateHas (gateAdd active c1) c2 = gateHas active c2 ∧
        gateHas (gateDelete active c1) c2 = gateHas active c2) ∧
    List.Pairwise (fun a b => a ≠ b)
      ["info", "warning", "error", "system", "tts", "file"] := by
  constructor
  · intro active c1 c2 h
    constructor
    · unfold gateHas gateAdd
      split
      · rfl
      · simp [List.contains_cons, Ne.symm h]
    · exact contains_erase_of_ne h
  · decide

theorem distinct_categories_do_not_interfere_witness :
    gateHas (gateAdd ["system"] "system") "tts" = gateHas ["system"] "tts" ∧
    gateHas (gateDelete ["system"] "system") "tts" = gateHas ["system"] "tts" :=
  distinct_categories_do_not_interfere.1 ["system"] "system" "tts" (by decide)

/-! ### Validator theorems -/

/-- C7: a tts request whose voice is present but not whitelisted is
not rejected: the say command is invoked without the -v flag (default
voice) and the downgrade is reported through the warned flag
(console.warn). -/
theorem unknown_voice_downgraded_not_rejected (text voice : String)
    (hvoice : ALLOWED_TTS_VOICES.contains voice = false)
    (hlen : jsStringLength text ≤ MAX_TTS_TEXT_LENGTH)
    (hne : text ≠ "") :
    ttsRequest (some text) (some voice) =
      .ok { call := { cmd := "say", args := [text] }, warned := true } := by
  have hemp : text.isEmpty = false := by
    cases h : text.isEmpty
    · rfl
    · exact absurd ((String.isEmpty_iff text).mp h) hne
  have hv : voice ∉ ALLOWED_TTS_VOICES := by simpa using hvoice
  simp [ttsRequest, ttsBranch, hemp, Nat.not_lt.mpr hlen, resolveTtsVoice, hv,
    ttsSpawnArgs]

theorem unknown_voice_downgraded_witness :
    ALLOWED_TTS_VOICES.contains "NotAVoice" = false ∧
    jsStringLength "hi" ≤ MAX_TTS_TEXT_LENGTH ∧
    "hi" ≠ "" ∧
    ttsRequest (some "hi") (some "NotAVoice") =
      .ok { call := { cmd := "say", args := ["hi"] }, warned := true } :=
  ⟨by decide, by decide, by decide,
   unknown_voice_downgraded_not_rejected "hi" "NotAVoice" (by decide) (by decide) (by decide)⟩

/-- C8: a file request with a non-absolute path is rejected with the
absolute-path error before any cache or filesystem access: the cache
afterwards is exactly the cache before and no stat was performed. -/
theorem relative_path_rejected_without_cache_access
    (statFn : String → Except String Stats) (now : Nat) (c : Cache) (p : String)
    (h : isAbsolute p = false) :
    fileBranch statFn now c p =
      { result := .error "File path must be absolute", cache := c, didStat := false } := by
  simp [fileBranch, h]

theorem relative_path_rejected_witness :
    isAbsolute "relative/path.wav" = false ∧
    fileBranch demoStatFn 0 [] "relative/path.wav" =
      { result := .error "File path must be absolute", cache := [], didStat := false } :=
  ⟨by decide,
   relative_path_rejected_without_cache_access demoStatFn 0 [] "relative/path.wav" (by decide)⟩

/-- One character contributes at least one UTF-16 code unit. -/
theorem codePointCount_le_jsStringLength (s : String) :
    codePointCount s ≤ jsStringLength s := by
  unfold codePointCount jsStringLength
  induction s.data with
  | nil => simp
  | cons c cs ih =>
    simp only [List.map_cons, List.sum_cons, List.length_cons]
    split <;> omega

/-- C3 amended: the tts text is required and must be non-empty, and
the length limit of 1000 is measured in UTF-16 code units (the
JavaScript .length), not in code points: a text over 1000 code units
is rejected as too long, a non-empty text of at most 1000 code units
is never rejected, and the code-unit count dominates the code-point
count. -/
theorem tts_length_measured_in_utf16_units :
    (∀ voice : Option String,
        ttsRequest none voice =
          .error "Parameter \x22text\x22 is required when type is \x22tts\x22") ∧
    (∀ voice : Option String,
        ttsRequest (some "") voice =
          .error "Parameter \x22text\x22 is required when type is \x22tts\x22") ∧
    (∀ (t : String) (voice : Option String),
        jsStringLength t > MAX_TTS_TEXT_LENGTH →
        ttsRequest (some t) voice = .error "Text too long (max 1000 characters)") ∧
    (∀ (t : String) (voice : Option String), t ≠ "" →
        jsStringLength t ≤ MAX_TTS_TEXT_LENGTH →
        ∃ r : TtsResult, ttsRequest (some t) voice = .ok r) ∧
    (∀ t : String, codePointCount t ≤ jsStringLength t) := by
  refine ⟨fun voice => rfl, fun voice => rfl, ?_, ?_, codePointCount_le_jsStringLength⟩
  · intro t voice hlong
    have hne : t ≠ "" := by
      intro he
      rw [he] at hlong
      simp [jsStringLength] at hlong
    have hemp : t.isEmpty = false := by
      cases h : t.isEmpty
      · rfl
      · exact absurd ((String.isEmpty_iff t).mp h) hne
    have : ttsRequest (some t) voice =
        .error s!"Text too long (max {MAX_TTS_TEXT_LENGTH} characters)" := by
      simp [ttsRequest, ttsBranch, hemp, hlong]
    simpa using this
  · intro t voice hne hlen
    have hemp : t.isEmpty = false := by
      cases h : t.isEmpty
      · rfl
      · exact absurd ((String.isEmpty_iff t).mp h) hne
    exact ⟨{ call := { cmd := "say", args := ttsSpawnArgs (resolveTtsVoice voice).1 t }
             warned := (resolveTtsVoice voice).2 },
           by simp [ttsRequest, ttsBranch, hemp, Nat.not_lt.mpr hlen]⟩

theorem tts_length_measured_in_utf16_units_witness :
    "hi" ≠ "" ∧ jsStringLength "hi" ≤ MAX_TTS_TEXT_LENGTH ∧
    (∃ r : TtsResult, ttsRequest (some "hi") none = .ok r) :=
  ⟨by decide, by decide,
   tts_length_measured_in_utf16_units.2.2.2.1 "hi" none (by decide) (by decide)⟩

set_option maxRecDepth 80000 in
/-- C3 counterexample: astral501 is non-empty and counts 501 code
points, at most the limit of 1000, yet the request is rejected as too
long, because the code measures text.length in UTF-16 code units
(1002). -/
theorem tts_codepoint_limit_counterexample :
    codePointCount astral501 = 501 ∧
    codePointCount astral501 ≤ MAX_TTS_TEXT_LENGTH ∧
    astral501 ≠ "" ∧
    jsStringLength astral501 = 1002 ∧
    ttsRequest (some astral501) none = .error "Text too long (max 1000 characters)" := by
  refine ⟨by decide, by decide, by decide, by decide, by decide⟩

/-! ### Stat cache lemmas -/

theorem mapGet_cons_of_ne {kv : String × CacheEntry} {tl : Cache} {k : String}
    (h : (kv.1 == k) = false) : mapGet (kv :: tl) k = mapGet tl k := by
  simp [mapGet, List.find?_cons_of_neg, h]

theorem mapGet_cons_of_eq {kv : String × CacheEntry} {tl : Cache} {k : String}
    (h : (kv.1 == k) = true) : mapGet (kv :: tl) k = some kv.2 := by
  simp [mapGet, List.find?_cons_of_pos, h]

theorem mapGet_mapSet_self (c : Cache) (k : String) (e : CacheEntry) :
    mapGet (mapSet c k e) k = some e := by
  unfold mapSet
  split
  · rename_i hfound
    induction c with
    | nil => simp at hfound
    | cons kv tl ih =>
      cases hb : (kv.1 == k) with
      | true =>
        have hk : kv.1 = k := by simpa using hb
        have hmap : (kv :: tl).map (fun kv => if kv.1 == k then (k, e) else kv) =
            (k, e) :: tl.map (fun kv => if kv.1 == k then (k, e) else kv) := by
          simp [hk]
        rw [hmap, mapGet_cons_of_eq (by simp)]
      | false =>
        have hk : ¬ kv.1 = k := by simpa using hb
        have hmap : (kv :: tl).map (fun kv => if kv.1 == k then (k, e) else kv) =
            kv :: tl.map (fun kv => if kv.1 == k then (k, e) else kv) := by
          simp [hk]
        have hfound' : (List.find? (fun kv => kv.1 == k) tl).isSome := by
          simpa [List.find?_cons, hb] using hfound
        rw [hmap, mapGet_cons_of_ne hb]
        exact ih hfound'
  · rename_i hnone
    have h0 : List.find? (fun kv => kv.1 == k) c = none := by
      cases hf : List.find? (fun kv => kv.1 == k) c
      · rfl
      · rw [hf] at hnone
        simp at hnone
    simp [mapGet, List.find?_append, h0]

theorem mapGet_touchEntry_self (c : Cache) (k : String) (now : Nat) :
    mapGet (touchEntry c k now) k =
      (mapGet c k).map (fun e => { e with lastAccessed := now }) := by
  induction c with
  | nil => rfl
  | cons kv tl ih =>
    cases hb : (kv.1 == k) with
    | false =>
      have hk : ¬ kv.1 = k := by simpa using hb
      have ht : touchEntry (kv :: tl) k now = kv :: touchEntry tl k now := by
        simp [touchEntry, hk]
      rw [ht, mapGet_cons_of_ne hb, mapGet_cons_of_ne hb, ih]
    | true =>
      have hk : kv.1 = k := by simpa using hb
      have ht : touchEntry (kv :: tl) k now =
          (kv.1, { kv.2 with lastAccessed := now }) :: touchEntry tl k now := by
        simp [hk, touchEntry]
      rw [ht, mapGet_cons_of_eq (by simpa using hb), mapGet_cons_of_eq hb]
      rfl

/-- C4: a getCachedFileStat call on a fresh path inserts the stat
result; a second call within the TTL returns exactly that stored
metadata with no filesystem access (whatever the filesystem would
answer now) and refreshes the lastAccessed field; an entry whose age
strictly exceeds the TTL is never served: the call performs a real
stat and returns its result; and in general any call that finds an
unexpired entry is a pure hit that only bumps lastAccessed. -/
theorem cache_hit_within_ttl_and_expired_refresh :
    (∀ (statFn statFn2 : String → Except String Stats) (c : Cache) (p : String)
        (st : Stats) (t0 t1 : Nat),
        mapGet c p = none → statFn p = .ok st → t1 - t0 < FILE_CACHE_TTL →
        (getCachedFileStat statFn2 t1 (getCachedFileStat statFn t0 c p).cache p).result =
          .ok st ∧
        (getCachedFileStat statFn2 t1 (getCachedFileStat statFn t0 c p).cache p).didStat =
          false ∧
        mapGet (getCachedFileStat statFn2 t1 (getCachedFileStat statFn t0 c p).cache p).cache
            p = some { stats := st, timestamp := t0, lastAccessed := t1 }) ∧
    (∀ (statFn : String → Except String Stats) (c : Cache) (p : String)
        (e : CacheEntry) (now : Nat),
        mapGet c p = some e → now - e.timestamp > FILE_CACHE_TTL →
        (getCachedFileStat statFn now c p).didStat = true ∧
        (getCachedFileStat statFn now c p).result = statFn p) ∧
    (∀ (statFn : String → Except String Stats) (c : Cache) (p : String)
        (e : CacheEntry) (now : Nat),
        mapGet c p = some e → now - e.timestamp < FILE_CACHE_TTL →
        (getCachedFileStat statFn now c p).result = .ok e.stats ∧
        (getCachedFileStat statFn now c p).didStat = false ∧
        mapGet (getCachedFileStat statFn now c p).cache p =
          some { e with lastAccessed := now }) := by
  refine ⟨?_, ?_, ?_⟩
  · intro statFn statFn2 c p st t0 t1 hmiss hstat httl
    have h2 : mapGet (getCachedFileStat statFn t0 c p).cache p =
        some { stats := st, timestamp := t0, lastAccessed := t0 } := by
      have h1 : (getCachedFileStat statFn t0 c p).cache =
          mapSet (if c.length ≥ MAX_CACHE_SIZE then cleanupCache t0 c else c) p
            { stats := st, timestamp := t0, lastAccessed := t0 } := by
        simp [getCachedFileStat, hmiss, freshStat, hstat]
      rw [h1]
      exact mapGet_mapSet_self _ _ _
    generalize hc1 : (getCachedFileStat statFn t0 c p).cache = c1 at h2 ⊢
    refine ⟨?_, ?_, ?_⟩ <;>
      simp [getCachedFileStat, h2, httl, mapGet_touchEntry_self]
  · intro statFn c p e now hsome httl
    have hge : ¬ (now - e.timestamp < FILE_CACHE_TTL) := by omega
    cases h : statFn p with
    | ok st => simp [getCachedFileStat, hsome, hge, freshStat, h]
    | error msg => simp [getCachedFileStat, hsome, hge, freshStat, h]
  · intro statFn c p e now hsome httl
    refine ⟨?_, ?_, ?_⟩ <;>
      simp [getCachedFileStat, hsome, httl, mapGet_touchEntry_self]

theorem cache_hit_within_ttl_witness :
    mapGet ([] : Cache) "/a.wav" = none ∧
    (fun _ => Except.ok { isFile := true, ident := 7 } : String → Except String Stats)
        "/a.wav" = .ok { isFile := true, ident := 7 } ∧
    (1 - 0 < FILE_CACHE_TTL) ∧
    ((getCachedFileStat (fun _ => Except.error "vanished") 1
        (getCachedFileStat (fun _ => Except.ok { isFile := true, ident := 7 }) 0 []
          "/a.wav").cache "/a.wav").result = .ok { isFile := true, ident := 7 } ∧
     (getCachedFileStat (fun _ => Except.error "vanished") 1
        (getCachedFileStat (fun _ => Except.ok { isFile := true, ident := 7 }) 0 []
          "/a.wav").cache "/a.wav").didStat = false ∧
     mapGet (getCachedFileStat (fun _ => Except.error "vanished") 1
        (getCachedFileStat (fun _ => Except.ok { isFile := true, ident := 7 }) 0 []
          "/a.wav").cache "/a.wav").cache "/a.wav" =
       some { stats := { isFile := true, ident := 7 }, timestamp := 0, lastAccessed := 1 }) :=
  ⟨rfl, rfl, by decide,
   cache_hit_within_ttl_and_expired_refresh.1
     (fun _ => Except.ok { isFile := true, ident := 7 })
     (fun _ => Except.error "vanished") [] "/a.wav"
     { isFile := true, ident := 7 } 0 1 rfl rfl (by decide)⟩

/-- C10: when the stat of an absolute fresh path succeeds but the
metadata is not a regular file, the metadata is inserted into the
cache anyway, the caller sees the file-not-found-or-inaccessible
message (the inner not-a-file rejection is replaced by the enclosing
catch), a repeat request within the TTL is answered from the cache
with no stat and the same message, and a path whose stat fails gets
the identical caller-visible message. -/
theorem nonfile_cached_and_error_message_uniform :
    (∀ (statFn statFn2 : String → Except String Stats) (c : Cache) (p : String)
        (st : Stats) (t0 t1 : Nat),
        isAbsolute p = true → mapGet c p = none → statFn p = .ok st →
        st.isFile = false → t1 - t0 < FILE_CACHE_TTL →
        (fileBranch statFn t0 c p).result =
          .error s!"File not found or inaccessible: {p}" ∧
        mapGet (fileBranch statFn t0 c p).cache p =
          some { stats := st, timestamp := t0, lastAccessed := t0 } ∧
        (fileBranch statFn2 t1 (fileBranch statFn t0 c p).cache p).didStat = false ∧
        (fileBranch statFn2 t1 (fileBranch statFn t0 c p).cache p).result =
          .error s!"File not found or inaccessible: {p}") ∧
    (∀ (statFn : String → Except String Stats) (c : Cache) (p : String)
        (msg : String) (now : Nat),
        isAbsolute p = true → mapGet c p = none → statFn p = .error msg →
        (fileBranch statFn now c p).result =
          .error s!"File not found or inaccessible: {p}") := by
  constructor
  · intro statFn statFn2 c p st t0 t1 habs hmiss hstat hnf httl
    have hso : getCachedFileStat statFn t0 c p =
        { result := .ok st
          cache := mapSet (if c.length ≥ MAX_CACHE_SIZE then cleanupCache t0 c else c) p
            { stats := st, timestamp := t0, lastAccessed := t0 }
          didStat := true } := by
      simp [getCachedFileStat, hmiss, freshStat, hstat]
    have hfb : fileBranch statFn t0 c p =
        { result := .error s!"File not found or inaccessible: {p}"
          cache := (getCachedFileStat statFn t0 c p).cache
          didStat := true } := by
      simp [fileBranch, habs, hso, hnf]
    have h2 : mapGet (fileBranch statFn t0 c p).cache p =
        some { stats := st, timestamp := t0, lastAccessed := t0 } := by
      rw [hfb]
      simp only [hso]
      exact mapGet_mapSet_self _ _ _
    refine ⟨by rw [hfb], h2, ?_, ?_⟩ <;>
    · generalize hg : (fileBranch statFn t0 c p).cache = c1 at h2
      simp [fileBranch, habs, getCachedFileStat, h2, httl, hnf]
  · intro statFn c p msg now habs hmiss hstat
    simp [fileBranch, habs, getCachedFileStat, hmiss, freshStat, hstat]

/-! ### Eviction sweep lemmas -/

theorem entryLe_trans (a b c : String × CacheEntry) :
    entryLe a b → entryLe b c → entryLe a c := by
  intro hab hbc
  simp [entryLe] at *
  omega

theorem entryLe_total (a b : String × CacheEntry) : entryLe a b || entryLe b a := by
  simp [entryLe]
  omega

theorem foldl_mapDelete_eq_filter (ks : List String) (c : Cache) :
    ks.foldl mapDelete c = c.filter (fun kv => !(ks.contains kv.1)) := by
  induction ks generalizing c with
  | nil => simp
  | cons k ks ih =>
    rw [List.foldl_cons, ih (mapDelete c k)]
    unfold mapDelete
    rw [List.filter_filter]
    apply List.filter_congr
    intro kv hkv
    simp only [List.contains_cons, Bool.not_or]
    exact Bool.and_comm _ _

theorem keys_nodup_expireSweep (now : Nat) {c : Cache}
    (h : (c.map Prod.fst).Nodup) : ((expireSweep now c).map Prod.fst).Nodup :=
  List.Nodup.sublist (List.Sublist.map _ (List.filter_sublist _)) h

/-- Splitting a filter whose predicate rejects exactly the first m
positions. -/
theorem filter_take_drop {α : Type} (p : α → Bool) (l : List α) (m : Nat)
    (hp1 : ∀ a ∈ l.take m, p a = false) (hp2 : ∀ a ∈ l.drop m, p a = true) :
    l.filter p = l.drop m := by
  have h1 : (l.take m).filter p = [] := by
    rw [List.filter_eq_nil_iff]
    intro a ha
    simp [hp1 a ha]
  have h2 : (l.drop m).filter p = l.drop m := by
    rw [List.filter_eq_self]
    intro a ha
    simp [hp2 a ha]
  conv_lhs => rw [← List.take_append_drop m l]
  rw [List.filter_append, h1, h2, List.nil_append]

/-- The cache left by the over-capacity branch of cleanupCache is a
permutation of the sorted-by-lastAccessed list with its first m
entries dropped. -/
theorem trim_filter_perm (l : Cache) (m : Nat) (hnd : (l.map Prod.fst).Nodup) :
    List.Perm
      (l.filter (fun kv => !((((l.mergeSort entryLe).take m).map Prod.fst).contains kv.1)))
      ((l.mergeSort entryLe).drop m) := by
  have hperm : List.Perm (l.mergeSort entryLe) l := List.mergeSort_perm l entryLe
  have hnds : ((l.mergeSort entryLe).map Prod.fst).Nodup :=
    ((hperm.map Prod.fst).nodup_iff).mpr hnd
  have hnd2 : (((l.mergeSort entryLe).take m).map Prod.fst ++
      ((l.mergeSort entryLe).drop m).map Prod.fst).Nodup := by
    rw [← List.map_append, List.take_append_drop]
    exact hnds
  have hdisj := (List.nodup_append.mp hnd2).2.2
  have hsplit : (l.mergeSort entryLe).filter
      (fun kv => !((((l.mergeSort entryLe).take m).map Prod.fst).contains kv.1)) =
      (l.mergeSort entryLe).drop m := by
    apply filter_take_drop
    · intro a ha
      have haf : a.1 ∈ ((l.mergeSort entryLe).take m).map Prod.fst :=
        List.mem_map_of_mem Prod.fst ha
      simpa using haf
    · intro a ha
      have haf : a.1 ∉ ((l.mergeSort entryLe).take m).map Prod.fst := by
        intro hmem
        exact hdisj hmem (List.mem_map_of_mem Prod.fst ha)
      simpa using haf
  exact hsplit ▸ List.Perm.filter _ hperm.symm

theorem cleanupCache_eq (now : Nat) (c : Cache) :
    cleanupCache now c =
      if (expireSweep now c).length > MAX_CACHE_SIZE then
        (lruVictims (expireSweep now c)).foldl mapDelete (expireSweep now c)
      else expireSweep now c := rfl

theorem cleanupCache_length_le (now : Nat) (c : Cache)
    (hnd : (c.map Prod.fst).Nodup) :
    (cleanupCache now c).length ≤ MAX_CACHE_SIZE := by
  rw [cleanupCache_eq]
  split
  · rename_i hover
    rw [foldl_mapDelete_eq_filter]
    unfold lruVictims
    have hperm := trim_filter_perm (expireSweep now c)
      ((expireSweep now c).length - MAX_CACHE_SIZE) (keys_nodup_expireSweep now hnd)
    rw [hperm.length_eq, List.length_drop, List.length_mergeSort]
    omega
  · rename_i hle
    omega

theorem mem_cleanup_mem_expire {now : Nat} {c : Cache} {kv : String × CacheEntry}
    (h : kv ∈ cleanupCache now c) : kv ∈ expireSweep now c := by
  rw [cleanupCache_eq] at h
  split at h
  · rw [foldl_mapDelete_eq_filter] at h
    exact (List.mem_filter.mp h).1
  · exact h

/-- C5: the sweep is two-phase in order: phase 1 removes exactly the
entries older than the TTL (every survivor has age at most the TTL,
and phase 2 runs only when phase 1 leaves the cache over capacity,
otherwise the sweep is phase 1 alone); when phase 2 does run, it
brings the size to exactly MAX_CACHE_SIZE and every entry it removes
has a lastAccessed at most that of every survivor (oldest-accessed
removed first). -/
theorem cleanup_two_phase_ttl_then_lru :
    (∀ (now : Nat) (c : Cache), ∀ kv ∈ cleanupCache now c,
        now - kv.2.timestamp ≤ FILE_CACHE_TTL) ∧
    (∀ (now : Nat) (c : Cache),
        (expireSweep now c).length ≤ MAX_CACHE_SIZE →
        cleanupCache now c = expireSweep now c) ∧
    (∀ (now : Nat) (c : Cache), (c.map Prod.fst).Nodup →
        (expireSweep now c).length > MAX_CACHE_SIZE →
        (cleanupCache now c).length = MAX_CACHE_SIZE ∧
        ∀ r ∈ expireSweep now c, r ∉ cleanupCache now c →
          ∀ kv ∈ cleanupCache now c, r.2.lastAccessed ≤ kv.2.lastAccessed) := by
  refine ⟨?_, ?_, ?_⟩
  · intro now c kv hkv
    have h1 := mem_cleanup_mem_expire hkv
    have h2 := (List.mem_filter.mp h1).2
    simp only [Bool.not_eq_true', decide_eq_false_iff_not, Nat.not_lt] at h2
    omega
  · intro now c hle
    rw [cleanupCache_eq, if_neg]
    omega
  · intro now c hnd hover
    have hnde := keys_nodup_expireSweep now hnd
    have hperm := trim_filter_perm (expireSweep now c)
      ((expireSweep now c).length - MAX_CACHE_SIZE) hnde
    have hres : cleanupCache now c =
        (expireSweep now c).filter
          (fun kv => !((lruVictims (expireSweep now c)).contains kv.1)) := by
      rw [cleanupCache_eq, if_pos hover, foldl_mapDelete_eq_filter]
    constructor
    · rw [hres]
      unfold lruVictims
      rw [hperm.length_eq, List.length_drop, List.length_mergeSort]
      omega
    · intro r hr hrout kv hkv
      have hperm2 : List.Perm ((expireSweep now c).mergeSort entryLe) (expireSweep now c) :=
        List.mergeSort_perm _ entryLe
      have hnds : (((expireSweep now c).mergeSort entryLe).map Prod.fst).Nodup :=
        ((hperm2.map Prod.fst).nodup_iff).mpr hnde
      have hkvf : kv ∈ (expireSweep now c).filter
          (fun kv => !((lruVictims (expireSweep now c)).contains kv.1)) := by
        rw [← hres]
        exact hkv
      have hkv_exp : kv ∈ expireSweep now c := (List.mem_filter.mp hkvf).1
      have hkv_notvict : kv.1 ∉ lruVictims (expireSweep now c) := by
        have h3 := (List.mem_filter.mp hkvf).2
        simpa using h3
      have hr_vict : r.1 ∈ lruVictims (expireSweep now c) := by
        by_contra hcon
        apply hrout
        rw [hres, List.mem_filter]
        exact ⟨hr, by simpa using hcon⟩
      have hr_take : r ∈ ((expireSweep now c).mergeSort entryLe).take
          ((expireSweep now c).length - MAX_CACHE_SIZE) := by
        have hr1 : r.1 ∈ (((expireSweep now c).mergeSort entryLe).take
            ((expireSweep now c).length - MAX_CACHE_SIZE)).map Prod.fst := hr_vict
        obtain ⟨b, hb_take, hb_key⟩ := List.mem_map.mp hr1
        have hb_s : b ∈ (expireSweep now c).mergeSort entryLe := List.mem_of_mem_take hb_take
        have hr_s : r ∈ (expireSweep now c).mergeSort entryLe := hperm2.symm.subset hr
        have hbr : b = r := List.inj_on_of_nodup_map hnds hb_s hr_s hb_key
        rwa [hbr] at hb_take
      have hkv_drop : kv ∈ ((expireSweep now c).mergeSort entryLe).drop
          ((expireSweep now c).length - MAX_CACHE_SIZE) := by
        have hkv_s : kv ∈ (expireSweep now c).mergeSort entryLe := hperm2.symm.subset hkv_exp
        rw [← List.take_append_drop ((expireSweep now c).length - MAX_CACHE_SIZE)
          ((expireSweep now c).mergeSort entryLe)] at hkv_s
        rcases List.mem_append.mp hkv_s with h | h
        · exact absurd (List.mem_map_of_mem Prod.fst h) hkv_notvict
        · exact h
      have hsorted : ((expireSweep now c).mergeSort entryLe).Pairwise
          (fun a b => entryLe a b = true) :=
        List.sorted_mergeSort entryLe_trans entryLe_total (expireSweep now c)
      rw [← List.take_append_drop ((expireSweep now c).length - MAX_CACHE_SIZE)
        ((expireSweep now c).mergeSort entryLe)] at hsorted
      have hle := (List.pairwise_append.mp hsorted).2.2 r hr_take kv hkv_drop
      simpa [entryLe] using hle

theorem cleanup_two_phase_witness :
    (expireSweep 0 ([] : Cache)).length ≤ MAX_CACHE_SIZE ∧
    cleanupCache 0 ([] : Cache) = expireSweep 0 ([] : Cache) :=
  ⟨by decide, cleanup_two_phase_ttl_then_lru.2.1 0 [] (by decide)⟩

/-! ### Cache size bound -/

theorem length_mapSet_le (c : Cache) (k : String) (e : CacheEntry) :
    (mapSet c k e).length ≤ c.length + 1 := by
  unfold mapSet
  split
  · simp
  · simp

theorem freshStat_cache_length_le (statFn : String → Except String Stats) (now : Nat)
    (c : Cache) (p : String) (hnd : (c.map Prod.fst).Nodup)
    (hlen : c.length ≤ MAX_CACHE_SIZE + 1) :
    (freshStat statFn now c p).cache.length ≤ MAX_CACHE_SIZE + 1 := by
  unfold freshStat
  cases h : statFn p with
  | ok st =>
    dsimp only
    by_cases hc : c.length ≥ MAX_CACHE_SIZE
    · have h1 := cleanupCache_length_le now c hnd
      have h2 := length_mapSet_le (cleanupCache now c) p
        { stats := st, timestamp := now, lastAccessed := now }
      rw [if_pos hc]
      omega
    · have h2 := length_mapSet_le c p { stats := st, timestamp := now, lastAccessed := now }
      rw [if_neg hc]
      omega
  | error msg =>
    dsimp only
    have := List.length_filter_le (fun kv => !(kv.1 == p)) c
    simp only [mapDelete]
    omega

/-- C2 amended: the live-entry bound that actually holds is
MAX_CACHE_SIZE + 1 = 101 after an insertion by getCachedFileStat (the
pre-insertion sweep only guarantees at most 100 entries before the new
entry is added), while after any run of the sweep itself - including
every interval-triggered run - the size is at most 100. -/
theorem cache_size_at_most_101 :
    (∀ (now : Nat) (c : Cache), (c.map Prod.fst).Nodup →
        (cleanupCache now c).length ≤ MAX_CACHE_SIZE) ∧
    (∀ (statFn : String → Except String Stats) (now : Nat) (c : Cache) (p : String),
        (c.map Prod.fst).Nodup → c.length ≤ MAX_CACHE_SIZE + 1 →
        (getCachedFileStat statFn now c p).cache.length ≤ MAX_CACHE_SIZE + 1) := by
  constructor
  · exact cleanupCache_length_le
  · intro statFn now c p hnd hlen
    unfold getCachedFileStat
    cases hg : mapGet c p with
    | some cached =>
      dsimp only
      by_cases httl : now - cached.timestamp < FILE_CACHE_TTL
      · rw [if_pos httl]
        simpa [touchEntry] using hlen
      · rw [if_neg httl]
        exact freshStat_cache_length_le statFn now c p hnd hlen
    | none =>
      dsimp only
      exact freshStat_cache_length_le statFn now c p hnd hlen

theorem cache_size_at_most_101_witness :
    (([] : Cache).map Prod.fst).Nodup ∧ ([] : Cache).length ≤ MAX_CACHE_SIZE + 1 ∧
    (getCachedFileStat demoStatFn 0 [] "/f0").cache.length ≤ MAX_CACHE_SIZE + 1 :=
  ⟨by decide, by decide,
   cache_size_at_most_101.2 demoStatFn 0 [] "/f0" (by decide) (by decide)⟩

set_option maxRecDepth 1000000 in
/-- C2 counterexample: with 100 unexpired entries the 101st insertion
runs the sweep (which removes nothing) and then inserts, leaving 101
entries - more than MAX_CACHE_SIZE - immediately after an insertion
performed by getCachedFileStat. -/
theorem cache_size_101_counterexample :
    demoCache100.length = MAX_CACHE_SIZE ∧
    demoOverflow.didStat = true ∧
    demoOverflow.cache.length = MAX_CACHE_SIZE + 1 := by
  refine ⟨by decide, by decide, by decide⟩

theorem nonfile_cached_witness :
    isAbsolute "/tmp" = true ∧
    mapGet ([] : Cache) "/tmp" = none ∧
    (fun _ => Except.ok { isFile := false, ident := 3 } : String → Except String Stats)
        "/tmp" = .ok { isFile := false, ident := 3 } ∧
    ({ isFile := false, ident := 3 } : Stats).isFile = false ∧
    (5 - 0 < FILE_CACHE_TTL) ∧
    ((fileBranch (fun _ => Except.ok { isFile := false, ident := 3 }) 0 [] "/tmp").result =
        .error "File not found or inaccessible: /tmp" ∧
     mapGet (fileBranch (fun _ => Except.ok { isFile := false, ident := 3 }) 0 []
         "/tmp").cache "/tmp" =
       some { stats := { isFile := false, ident := 3 }, timestamp := 0, lastAccessed := 0 } ∧
     (fileBranch (fun _ => Except.ok { isFile := false, ident := 3 }) 5
        (fileBranch (fun _ => Except.ok { isFile := false, ident := 3 }) 0 []
          "/tmp").cache "/tmp").didStat = false ∧
     (fileBranch (fun _ => Except.ok { isFile := false, ident := 3 }) 5
        (fileBranch (fun _ => Except.ok { isFile := false, ident := 3 }) 0 []
          "/tmp").cache "/tmp").result = .error "File not found or inaccessible: /tmp") :=
  ⟨rfl, rfl, rfl, rfl, by decide,
   nonfile_cached_and_error_message_uniform.1
     (fun _ => Except.ok { isFile := false, ident := 3 })
     (fun _ => Except.ok { isFile := false, ident := 3 }) [] "/tmp"
     { isFile := false, ident := 3 } 0 5 rfl rfl rfl rfl (by decide)⟩

end MakeSound
